import Mathlib

/-!
Shallow embedding of `src/stress_tester.py` (systress), a CLI stress-testing
tool for CPU, RAM and network, together with theorems settling the spec
claims about it.

Conventions of the embedding:
* Python integers become `Nat`/`Int`; Python `//` on naturals becomes `Nat`
  division; `int(n**0.5)` becomes `Nat.sqrt` (the spec reads it as floor of
  the square root).
* `range(a, b, s)` becomes `List.range' a k s` with `k` the Python length.
* time values (`time.time()` results and durations) are modelled as
  rationals; the expiry test of the worker loops is the negation of the
  loop condition `time.time() - start_time < duration`.
* fallible operations (Python exceptions) are modelled with `Except` or
  with explicit outcome oracles: a worker loop that may hit a `MemoryError`
  or a socket error takes the point of failure as a parameter, and the
  theorems quantify over it.
-/

namespace Systress

/-- Outcome of one worker, as the pool collects it: either a numeric metric
or a failure reason. -/
inductive WorkerResult where
  | ok (metric : Nat)
  | failed (reason : String)
deriving DecidableEq, Repr

/-! ### CPU stress test: `is_prime` (lines 49-60) -/

/-- Embedding of `is_prime(n)` from `src/stress_tester.py` lines 49-60:
`n < 2` returns false, `n == 2` returns true, even `n` returns false,
otherwise trial division over `range(3, int(n**0.5) + 1, 2)`.
The Python range `range(3, stop, 2)` has `(stop - 2) / 2` elements
(natural subtraction), which is how the `List.range'` length below arises. -/
def is_prime (n : Int) : Bool :=
  if n < 2 then false
  else if n = 2 then true
  else if n % 2 = 0 then false
  else
    (List.range' 3 ((Nat.sqrt n.toNat + 1 - 2) / 2) 2).all
      (fun i => decide (n.toNat % i ≠ 0))

/-- The trial-division characterisation in the claim's words: `n < 2` is not
prime, `n = 2` is prime, even `n > 2` is not prime, otherwise `n` is prime
iff no odd divisor from 3 to `floor (sqrt n)` inclusive divides `n`. -/
def is_prime_claim (n : Int) : Bool :=
  if n < 2 then false
  else if n = 2 then true
  else if n % 2 = 0 then false
  else
    decide (∀ d : Nat, d ≤ Nat.sqrt n.toNat → 3 ≤ d → d % 2 = 1 → n.toNat % d ≠ 0)

/-- C2: for every integer `n`, `is_prime n` agrees with the trial-division
definition of primality (n < 2 not prime, 2 prime, even n > 2 not prime,
otherwise prime iff no odd divisor from 3 to floor(sqrt n) inclusive divides
n), and in particular `is_prime 2 = true`, `is_prime 1 = false`,
`is_prime 9 = false`, `is_prime 97 = true`. -/
theorem is_prime_agrees_trial_division :
    (∀ n : Int, is_prime n = is_prime_claim n) ∧
    is_prime 2 = true ∧ is_prime 1 = false ∧
    is_prime 9 = false ∧ is_prime 97 = true := by
  have h9 : Nat.sqrt ((9:Int).toNat) = 3 := (Nat.eq_sqrt.mpr (by norm_num)).symm
  have h97 : Nat.sqrt ((97:Int).toNat) = 9 := (Nat.eq_sqrt.mpr (by norm_num)).symm
  refine ⟨?_, by decide, by decide, ?_, ?_⟩
  · intro n
    unfold is_prime is_prime_claim
    split
    · rfl
    split
    · rfl
    split
    · rfl
    rw [Bool.eq_iff_iff, List.all_eq_true, decide_eq_true_eq]
    constructor
    · intro h d hle h3 hodd
      have hmem : d ∈ List.range' 3 ((Nat.sqrt n.toNat + 1 - 2) / 2) 2 := by
        rw [List.mem_range']
        exact ⟨(d - 3) / 2, by omega, by omega⟩
      simpa using h d hmem
    · intro h i hi
      rw [List.mem_range'] at hi
      obtain ⟨j, hj, rfl⟩ := hi
      simpa using h _ (by omega) (by omega) (by omega)
  · unfold is_prime
    rw [h9]
    decide
  · unfold is_prime
    rw [h97]
    decide

/-! ### Work budget: the loop condition `time.time() - start_time < duration`
(line 68 and the analogous loops at lines 134, 191, 227) -/

/-- Expiry check of the work budget. Every worker loop runs
`while time.time() - start_time < duration`, so the budget is expired exactly
when that condition is false. Times are modelled as rationals. -/
def budget_expired (start duration now : ℚ) : Bool :=
  !(decide (now - start < duration))

/-- C4: the budget expiry check is equivalent to `now - start >= duration`;
it is false at construction time (`now = start`) when `duration > 0`, true
once the duration has elapsed, and true immediately when `duration = 0`. -/
theorem budget_expired_spec (start duration now : ℚ) :
    (budget_expired start duration now = true ↔ duration ≤ now - start) ∧
    (0 < duration → budget_expired start duration start = false) ∧
    (duration = 0 → budget_expired start duration start = true) := by
  refine ⟨?_, ?_, ?_⟩
  · simp [budget_expired]
  · intro h
    simp [budget_expired]
    linarith
  · intro h
    simp [budget_expired, h]

/-- Witness for C4 at concrete times: with `start = 0` and `duration = 5`
the budget is expired at `now = 7`, not expired at `now = 0`; with
`duration = 0` it is expired at once. -/
theorem budget_expired_spec_witness :
    budget_expired 0 5 7 = true ∧ budget_expired 0 5 0 = false ∧
    budget_expired 3 0 3 = true :=
  ⟨(budget_expired_spec 0 5 7).1.mpr (by norm_num),
   (budget_expired_spec 0 5 0).2.1 (by norm_num),
   (budget_expired_spec 3 0 3).2.2 rfl⟩

/-! ### Worker pools: `stress_cpu` (lines 76-101) and `stress_ram`
(lines 147-168)

`stress_cpu` appends one async result per `i in range(cores)` and joins the
pool; `stress_ram` computes `size_per_thread = size_mb // threads`, spawns
one thread per `i in range(threads)` with arguments `(i, size_per_thread,
duration)`, and joins them all.  Worker outcomes are abstracted by an oracle
so the theorems quantify over arbitrary per-worker success or failure.
`size_mb // threads` raises `ZeroDivisionError` when `threads = 0`, hence
the `Except`. -/

/-- Result collection of `stress_cpu` with `cores` workers: one result per
worker id in `range(cores)`, each worker's outcome given by the oracle. -/
def stress_cpu_results (cores : Nat) (outcome : Nat → WorkerResult) :
    List WorkerResult :=
  (List.range cores).map outcome

/-- The `(worker_id, size_per_thread)` thread spawns `stress_ram` performs
(lines 153-162), or the `ZeroDivisionError` from `size_mb // threads`. -/
def stress_ram_spawns (size_mb threads : Nat) :
    Except String (List (Nat × Nat)) :=
  if threads = 0 then .error "integer division by zero"
  else .ok ((List.range threads).map (fun i => (i, size_mb / threads)))

/-- Result collection of `stress_ram`: each spawned thread runs `ram_worker`,
whose outcome is abstracted by an oracle taking the worker id and its
per-thread size. -/
def stress_ram_results (size_mb threads : Nat)
    (outcome : Nat → Nat → WorkerResult) : Except String (List WorkerResult) :=
  (stress_ram_spawns size_mb threads).map (fun l => l.map (fun p => outcome p.1 p.2))

/-- C1 counterexample: at worker count `N = 0`, `stress_ram` does not yield a
collection of 0 results: `size_mb // threads` with `threads = 0` raises a
`ZeroDivisionError` (line 153) before any result is collected. -/
theorem stress_ram_zero_workers_no_results :
    ¬ ∃ rs, stress_ram_results 1024 0 (fun _ _ => WorkerResult.ok 0) =
      Except.ok rs ∧ rs.length = 0 := by
  rintro ⟨rs, h, -⟩
  simp [stress_ram_results, stress_ram_spawns, Except.map] at h

/-- C1 (amended): for every worker count `N ≥ 1` and any per-worker outcomes
(successes or failures), `stress_cpu` collects exactly `N` results and
`stress_ram` spawns and collects exactly `N` results. -/
theorem pool_collects_worker_count (n : Nat) (hn : 1 ≤ n) :
    ∀ (size_mb : Nat) (oc : Nat → WorkerResult) (orr : Nat → Nat → WorkerResult),
      (stress_cpu_results n oc).length = n ∧
      ∃ rs, stress_ram_results size_mb n orr = Except.ok rs ∧ rs.length = n := by
  intro size_mb oc orr
  refine ⟨by simp [stress_cpu_results], ?_⟩
  refine ⟨(List.range n).map (fun i => orr i (size_mb / n)), ?_, by simp⟩
  have hne : n ≠ 0 := by omega
  simp [stress_ram_results, stress_ram_spawns, hne, Except.map]

/-- Witness for C1 (amended) at `N = 3`, `size_mb = 10`, all workers
succeeding with metric 0. -/
theorem pool_collects_worker_count_witness :
    (stress_cpu_results 3 (fun _ => WorkerResult.ok 0)).length = 3 ∧
    ∃ rs, stress_ram_results 10 3 (fun _ _ => WorkerResult.ok 0) =
      Except.ok rs ∧ rs.length = 3 :=
  pool_collects_worker_count 3 (by decide) 10 (fun _ => WorkerResult.ok 0)
    (fun _ _ => WorkerResult.ok 0)

/-- The only configuration check on the mode string: `main` (lines 324-325)
restricts `--mode` to the argparse choices `server` and `client`. -/
def argparse_network_mode_ok (mode : String) : Bool :=
  mode = "server" || mode = "client"

/-- C6 counterexample: with `total_size_mb = 1` and `thread_count = 4` the
configuration is invalid by the claim's own criterion (`1 // 4 = 0`), yet
`stress_ram` spawns all 4 workers (each with per-thread size 0) instead of
failing fast before any worker is spawned. -/
theorem stress_ram_spawns_despite_invalid_config :
    (1 : Nat) / 4 = 0 ∧
    stress_ram_spawns 1 4 = Except.ok [(0, 0), (1, 0), (2, 0), (3, 0)] := by
  constructor
  · rfl
  · simp [stress_ram_spawns, List.range_succ]

/-- C6 (amended): the only configuration validated before the run is the
network mode string, restricted by the CLI parser to `server` or `client`;
`stress_ram` performs no size or duration validation and, for every
`total_size_mb` and every `thread_count ≥ 1`, spawns exactly `thread_count`
workers with per-thread size `total_size_mb / thread_count` even when that
quotient is 0. -/
theorem config_validation_behavior :
    (∀ mode, argparse_network_mode_ok mode = true ↔
      (mode = "server" ∨ mode = "client")) ∧
    (∀ size_mb threads, 1 ≤ threads →
      ∃ l, stress_ram_spawns size_mb threads = Except.ok l ∧
        l.length = threads ∧ ∀ p ∈ l, p.2 = size_mb / threads) := by
  constructor
  · intro mode
    simp [argparse_network_mode_ok]
  · intro size_mb threads h
    have hne : threads ≠ 0 := by omega
    refine ⟨(List.range threads).map (fun i => (i, size_mb / threads)), ?_, by simp, ?_⟩
    · simp [stress_ram_spawns, hne]
    · intro p hp
      simp only [List.mem_map, List.mem_range] at hp
      obtain ⟨i, -, rfl⟩ := hp
      rfl

/-- Witness for C6 (amended): the mode string `server` passes the CLI check,
and `stress_ram` with `total_size_mb = 1`, `thread_count = 4` spawns 4
workers of per-thread size `1 / 4 = 0`. -/
theorem config_validation_behavior_witness :
    argparse_network_mode_ok "server" = true ∧
    (∃ l, stress_ram_spawns 1 4 = Except.ok l ∧
      l.length = 4 ∧ ∀ p ∈ l, p.2 = 1 / 4) :=
  ⟨(config_validation_behavior.1 "server").mpr (Or.inl rfl),
   config_validation_behavior.2 1 4 (by decide)⟩

/-- C7: for `thread_count > 0`, every spawned RAM worker receives per-thread
size `total_size_mb / thread_count` (integer division), the total across
workers is `thread_count * (total_size_mb / thread_count)` MB, and the
remainder MB is dropped: that total never exceeds `total_size_mb`. -/
theorem ram_per_thread_size (size_mb threads : Nat) (h : 0 < threads) :
    ∃ l, stress_ram_spawns size_mb threads = Except.ok l ∧
      (∀ p ∈ l, p.2 = size_mb / threads) ∧
      (l.map Prod.snd).sum = threads * (size_mb / threads) ∧
      threads * (size_mb / threads) ≤ size_mb := by
  have hne : threads ≠ 0 := by omega
  refine ⟨(List.range threads).map (fun i => (i, size_mb / threads)),
    by unfold stress_ram_spawns; rw [if_neg hne], ?_, ?_, ?_⟩
  · intro p hp
    simp only [List.mem_map, List.mem_range] at hp
    obtain ⟨i, -, rfl⟩ := hp
    rfl
  · have : ((List.range threads).map (fun i => (i, size_mb / threads))).map Prod.snd
        = List.replicate threads (size_mb / threads) := by
      rw [List.map_map]
      show (List.range threads).map (fun _ => size_mb / threads) = _
      rw [List.map_const', List.length_range]
    rw [this, List.sum_replicate, smul_eq_mul]
  · calc threads * (size_mb / threads) = size_mb / threads * threads := Nat.mul_comm _ _
      _ ≤ size_mb := Nat.div_mul_le_self _ _

/-- Witness for C7 at `total_size_mb = 10`, `thread_count = 4`: each worker
gets 2 MB, the total is `4 * 2 = 8 ≤ 10` MB. -/
theorem ram_per_thread_size_witness :
    ∃ l, stress_ram_spawns 10 4 = Except.ok l ∧
      (∀ p ∈ l, p.2 = 10 / 4) ∧
      (l.map Prod.snd).sum = 4 * (10 / 4) ∧ 4 * (10 / 4) ≤ 10 :=
  ram_per_thread_size 10 4 (by decide)

/-! ### Network mode dispatch: `stress_network` (lines 252-275) -/

/-- What one invocation of `stress_network` does, by mode: run the server
inline, spawn a pool of client threads, or (for any other mode string) print
the invalid-mode error and return. -/
inductive NetworkRun where
  | serverRun (host : String) (port : Nat)
  | clientPool (count : Nat)
  | invalidMode (message : String)
deriving DecidableEq, Repr

/-- Embedding of the mode dispatch of `stress_network` (lines 256-275). -/
def stress_network (mode host : String) (port clients : Nat) : NetworkRun :=
  if mode = "server" then .serverRun host port
  else if mode = "client" then .clientPool clients
  else .invalidMode "Invalid network mode. Use 'server' or 'client'"

/-- Worker threads spawned by a network run: `clients` threads in client
mode (lines 261-268), none otherwise. -/
def net_workers_spawned : NetworkRun → Nat
  | .clientPool n => n
  | _ => 0

/-- Whether a network run invokes a socket workload (`network_server` or
`network_client`). All socket creation and byte transfer of the network test
happens inside those two functions, so a run that invokes neither opens no
socket and transfers no bytes; the invalid branch (line 275) only calls
`print_status`. -/
def net_runs_workload : NetworkRun → Bool
  | .serverRun _ _ => true
  | .clientPool _ => true
  | .invalidMode _ => false

/-- C5: for every mode string other than `server` and `client`,
`stress_network` reports the invalid-mode error and performs no work: it
spawns no worker threads and invokes no socket workload (hence opens no
socket and transfers no bytes). -/
theorem stress_network_invalid_mode (mode host : String) (port clients : Nat)
    (hs : mode ≠ "server") (hc : mode ≠ "client") :
    stress_network mode host port clients =
      NetworkRun.invalidMode "Invalid network mode. Use 'server' or 'client'" ∧
    net_workers_spawned (stress_network mode host port clients) = 0 ∧
    net_runs_workload (stress_network mode host port clients) = false := by
  unfold stress_network
  rw [if_neg hs, if_neg hc]
  exact ⟨rfl, rfl, rfl⟩

/-- Witness for C5 at the concrete mode string `proxy`. -/
theorem stress_network_invalid_mode_witness :
    stress_network "proxy" "127.0.0.1" 9999 4 =
      NetworkRun.invalidMode "Invalid network mode. Use 'server' or 'client'" ∧
    net_workers_spawned (stress_network "proxy" "127.0.0.1" 9999 4) = 0 ∧
    net_runs_workload (stress_network "proxy" "127.0.0.1" 9999 4) = false :=
  stress_network_invalid_mode "proxy" "127.0.0.1" 9999 4
    (by decide) (by decide)

/-! ### RAM worker allocation phase: `ram_worker` (lines 107-145)

The worker allocates `size_mb` chunks of `1024 * 1024` bytes in a loop; a
chunk allocation may raise `MemoryError`, which the handler at line 142
catches, ending the worker with the chunks allocated so far.  Whether the
allocation of chunk `i` succeeds is abstracted by the oracle `alloc_ok`. -/

/-- Outcome of the allocation phase of `ram_worker`: full allocation, or an
allocation failure with the number of bytes successfully allocated first. -/
inductive RamOutcome where
  | ok (bytes : Nat)
  | failed (reason : String) (bytes : Nat)
deriving DecidableEq, Repr

/-- Bytes allocated at the end of the allocation phase. -/
def RamOutcome.bytes : RamOutcome → Nat
  | .ok b => b
  | .failed _ b => b

/-- Python `chunk_size = 1024 * 1024` (line 112): 1 MiB. -/
def chunk_size : Nat := 1024 * 1024

/-- Allocation loop of `ram_worker` (lines 120-129): `n` chunks remain,
`allocated` chunks have been appended to `memory_blocks`.  A failed chunk
allocation stops the loop at once with the partial byte count. -/
def ram_alloc (alloc_ok : Nat → Bool) : Nat → Nat → RamOutcome
  | 0, allocated => .ok (allocated * chunk_size)
  | n + 1, allocated =>
    if alloc_ok allocated then ram_alloc alloc_ok n (allocated + 1)
    else .failed "allocation failure" (allocated * chunk_size)

/-- Allocation phase of `ram_worker` for a requested `size_mb`. -/
def ram_worker_alloc (alloc_ok : Nat → Bool) (size_mb : Nat) : RamOutcome :=
  ram_alloc alloc_ok size_mb 0

lemma ram_alloc_succ (alloc_ok : Nat → Bool) (k a : Nat) :
    ram_alloc alloc_ok (k + 1) a =
      if alloc_ok a then ram_alloc alloc_ok k (a + 1)
      else .failed "allocation failure" (a * chunk_size) := rfl

lemma ram_alloc_cases (alloc_ok : Nat → Bool) :
    ∀ n a, ram_alloc alloc_ok n a = .ok ((a + n) * chunk_size) ∨
      ∃ b, ram_alloc alloc_ok n a = .failed "allocation failure" b ∧
        b ≤ (a + n) * chunk_size := by
  intro n
  induction n with
  | zero => intro a; left; rfl
  | succ k ih =>
    intro a
    rw [ram_alloc_succ]
    by_cases h : alloc_ok a
    · rw [if_pos h]
      have hadd : a + 1 + k = a + (k + 1) := by omega
      rcases ih (a + 1) with h1 | ⟨b, h1, h2⟩
      · left; rw [h1, hadd]
      · right; exact ⟨b, h1, by rw [← hadd]; exact h2⟩
    · rw [if_neg h]
      right
      exact ⟨a * chunk_size, rfl,
        mul_le_mul_right' (by omega : a ≤ a + (k + 1)) chunk_size⟩

/-- C3: for every requested `size_mb` and every allocation behaviour, the
RAM worker either allocates exactly `size_mb * 1MiB` bytes, or stops at the
first allocation failure with outcome `failed "allocation failure"` and a
partial byte count at most the requested size; in every case the allocated
byte count never exceeds `size_mb * 1MiB`. -/
theorem ram_worker_alloc_spec (alloc_ok : Nat → Bool) (size_mb : Nat) :
    (ram_worker_alloc alloc_ok size_mb = .ok (size_mb * chunk_size) ∨
      ∃ b, ram_worker_alloc alloc_ok size_mb = .failed "allocation failure" b ∧
        b ≤ size_mb * chunk_size) ∧
    (ram_worker_alloc alloc_ok size_mb).bytes ≤ size_mb * chunk_size := by
  have h := ram_alloc_cases alloc_ok size_mb 0
  rw [Nat.zero_add] at h
  have hb : (ram_worker_alloc alloc_ok size_mb).bytes ≤ size_mb * chunk_size := by
    rcases h with h1 | ⟨b, h1, h2⟩
    · unfold ram_worker_alloc
      rw [h1]
      exact Nat.le_refl _
    · unfold ram_worker_alloc
      rw [h1]
      exact h2
  exact ⟨h, hb⟩

/-! ### CPU worker loop: `cpu_worker` (lines 62-74)

`count = 0; num = 2; while not expired: if is_prime(num): count += 1;
num += 1; return count`.  The budget is polled once per iteration, so the
loop is modelled with the number of iterations `k` as fuel. -/

/-- The `cpu_worker` loop: `k` iterations remain, cursor `num`, prime
counter `count`; returns the final cursor and counter. -/
def cpu_worker_go : Nat → Int → Nat → Int × Nat
  | 0, num, count => (num, count)
  | k + 1, num, count =>
    cpu_worker_go k (num + 1) (count + if is_prime num then 1 else 0)

/-- The numbers the `cpu_worker` loop tests in `k` iterations starting at
cursor `num`. -/
def cpu_worker_tested : Nat → Int → List Int
  | 0, _ => []
  | k + 1, num => num :: cpu_worker_tested k (num + 1)

/-- The loop the claim describes instead: after 2 the cursor would move only
through successive odd integers (2, 3, 5, 7, ...). -/
def cpu_worker_claim_go : Nat → Int → Nat → Int × Nat
  | 0, num, count => (num, count)
  | k + 1, num, count =>
    cpu_worker_claim_go k (if num = 2 then 3 else num + 2)
      (count + if is_prime num then 1 else 0)

lemma cpu_worker_go_succ (k : Nat) (num : Int) (count : Nat) :
    cpu_worker_go (k + 1) num count =
      cpu_worker_go k (num + 1) (count + if is_prime num then 1 else 0) := rfl

lemma cpu_worker_claim_go_succ (k : Nat) (num : Int) (count : Nat) :
    cpu_worker_claim_go (k + 1) num count =
      cpu_worker_claim_go k (if num = 2 then 3 else num + 2)
        (count + if is_prime num then 1 else 0) := rfl

lemma is_prime_two : is_prime 2 = true := by decide

lemma is_prime_three : is_prime 3 = true := by
  have h : Nat.sqrt ((3 : Int).toNat) = 1 := (Nat.eq_sqrt.mpr (by norm_num)).symm
  unfold is_prime
  rw [h]
  decide

lemma is_prime_four : is_prime 4 = false := by decide

lemma is_prime_five : is_prime 5 = true := by
  have h : Nat.sqrt ((5 : Int).toNat) = 2 := (Nat.eq_sqrt.mpr (by norm_num)).symm
  unfold is_prime
  rw [h]
  decide

/-- C8 counterexample: the worker does not test only 2 and successive odd
integers.  In its first three iterations it tests 2, 3 and 4 — and 4 is
even and not 2 — finishing with cursor 5 and counter 2, whereas a loop
testing 2, 3, 5 as the claim describes would finish with cursor 7 and
counter 3. -/
theorem cpu_worker_tests_even_numbers :
    cpu_worker_tested 3 2 = [2, 3, 4] ∧
    ((4 : Int) % 2 = 0 ∧ (4 : Int) ≠ 2) ∧
    cpu_worker_go 3 2 0 = (5, 2) ∧
    cpu_worker_claim_go 3 2 0 = (7, 3) := by
  refine ⟨by decide, by decide, ?_, ?_⟩
  · show cpu_worker_go (2 + 1) 2 0 = (5, 2)
    rw [cpu_worker_go_succ, is_prime_two]
    norm_num
    show cpu_worker_go (1 + 1) 3 1 = (5, 2)
    rw [cpu_worker_go_succ, is_prime_three]
    norm_num
    show cpu_worker_go (0 + 1) 4 2 = (5, 2)
    rw [cpu_worker_go_succ, is_prime_four]
    norm_num
    rfl
  · show cpu_worker_claim_go (2 + 1) 2 0 = (7, 3)
    rw [cpu_worker_claim_go_succ, is_prime_two]
    norm_num
    show cpu_worker_claim_go (1 + 1) 3 1 = (7, 3)
    rw [cpu_worker_claim_go_succ, is_prime_three]
    norm_num
    show cpu_worker_claim_go (0 + 1) 5 2 = (7, 3)
    rw [cpu_worker_claim_go_succ, is_prime_five]
    norm_num
    rfl

lemma cpu_worker_go_eq (k : Nat) :
    ∀ (num : Int) (count : Nat),
      cpu_worker_go k num count =
        (num + k, count + (cpu_worker_tested k num).countP (fun m => is_prime m)) := by
  induction k with
  | zero => intro num count; simp [cpu_worker_go, cpu_worker_tested]
  | succ k ih =>
    intro num count
    rw [cpu_worker_go_succ, ih]
    show _ = (num + (k + 1 : Nat), count +
      List.countP (fun m => is_prime m) (num :: cpu_worker_tested k (num + 1)))
    rw [List.countP_cons, Prod.mk.injEq]
    refine ⟨by push_cast; ring, ?_⟩
    cases h : is_prime num
    · simp [h]
    · simp [h]
      omega

lemma cpu_worker_tested_eq (k : Nat) :
    ∀ num : Int, cpu_worker_tested k num =
      (List.range k).map (fun j : Nat => num + (j : Int)) := by
  induction k with
  | zero => intro num; rfl
  | succ k ih =>
    intro num
    show num :: cpu_worker_tested k (num + 1) = _
    rw [List.range_succ_eq_map, ih]
    simp only [List.map_cons, List.map_map, Nat.cast_zero, add_zero]
    rw [List.cons.injEq]
    refine ⟨rfl, ?_⟩
    apply List.map_congr_left
    intro j _
    show num + 1 + (j : Int) = num + (Nat.succ j : Nat)
    push_cast
    ring

/-- C8 (amended): in `k` iterations the CPU worker tests the `k` successive
integers starting at its cursor 2 (even numbers included, though `is_prime`
rejects them at once), increments its local counter once per prime found,
and finishes with counter equal to the number of primes among the tested
numbers; the cursor starts at 2 and the whole loop state is a pure function
of that worker's own fuel, independent of other workers. -/
theorem cpu_worker_counts_primes_of_successive_integers (k : Nat) :
    cpu_worker_tested k 2 = (List.range k).map (fun j : Nat => (2 : Int) + (j : Int)) ∧
    cpu_worker_go k 2 0 =
      (2 + (k : Int), (cpu_worker_tested k 2).countP (fun m => is_prime m)) := by
  refine ⟨cpu_worker_tested_eq k 2, ?_⟩
  rw [cpu_worker_go_eq]
  simp

/-! ### RAM chunk write pattern: lines 120-126

After allocating chunk `i` (a zero-initialised bytearray of `chunk_size`
bytes), the worker writes `block[j] = (i + j) % 256` for
`j in range(0, chunk_size, 4096)`. -/

/-- The offsets written in each chunk: `range(0, 1048576, 4096)`,
i.e. 256 offsets of stride 4096. -/
def chunk_write_offsets : List Nat := List.range' 0 256 4096

/-- The write loop at lines 124-125, starting from the byte content `block`
of the freshly created bytearray. -/
def write_block (i : Nat) (block : Nat → Nat) : Nat → Nat :=
  chunk_write_offsets.foldl (fun b j => Function.update b j ((i + j) % 256)) block

lemma foldl_update_apply (v : Nat → Nat) :
    ∀ (l : List Nat) (b : Nat → Nat) (j : Nat),
      (l.foldl (fun b k => Function.update b k (v k)) b) j =
        if j ∈ l then v j else b j := by
  intro l
  induction l with
  | nil => intro b j; simp
  | cons a l ih =>
    intro b j
    rw [List.foldl_cons, ih]
    by_cases hj : j ∈ l
    · simp [hj]
    · by_cases hja : j = a
      · subst hja
        simp [hj]
      · simp [hj, hja, Function.update_noteq hja]

/-- C9: every write of the chunk-`i` pattern loop lands at an offset that is
a multiple of 4096, bytes at other offsets keep their previous value, and —
because `4096 % 256 = 0` — the value `(i + j) % 256` stored at each written
offset equals `i % 256`: immediately after allocation every touched byte of
chunk `i` holds `i % 256`. -/
theorem chunk_write_pattern (i : Nat) (b : Nat → Nat) :
    (∀ j ∈ chunk_write_offsets, j % 4096 = 0) ∧
    (∀ j, j % 4096 = 0 → j < chunk_size → write_block i b j = i % 256) ∧
    (∀ j, j % 4096 ≠ 0 → write_block i b j = b j) := by
  have hcs : chunk_size = 1048576 := rfl
  have hmem : ∀ j : Nat, j ∈ chunk_write_offsets ↔ (j % 4096 = 0 ∧ j < 1048576) := by
    intro j
    unfold chunk_write_offsets
    rw [List.mem_range']
    constructor
    · rintro ⟨t, ht, rfl⟩
      omega
    · rintro ⟨hmod, hlt⟩
      exact ⟨j / 4096, by omega, by omega⟩
  refine ⟨?_, ?_, ?_⟩
  · intro j hj
    exact ((hmem j).mp hj).1
  · intro j hmod hlt
    unfold write_block
    rw [foldl_update_apply, if_pos ((hmem j).mpr ⟨hmod, by omega⟩)]
    omega
  · intro j hmod
    unfold write_block
    rw [foldl_update_apply, if_neg (fun hin => hmod ((hmem j).mp hin).1)]

/-- Witness for C9 at chunk index `i = 300`, zeroed block: offset 8192 holds
`300 % 256 = 44`, offset 5 is untouched. -/
theorem chunk_write_pattern_witness :
    (∀ j ∈ chunk_write_offsets, j % 4096 = 0) ∧
    write_block 300 (fun _ => 0) 8192 = 300 % 256 ∧
    write_block 300 (fun _ => 0) 5 = 0 :=
  ⟨(chunk_write_pattern 300 (fun _ => 0)).1,
   (chunk_write_pattern 300 (fun _ => 0)).2.1 8192 (by decide) (by decide),
   (chunk_write_pattern 300 (fun _ => 0)).2.2 5 (by decide)⟩

/-! ### Network client counters: `network_client` (lines 216-250)

Each outer iteration opens a connection, runs
`for _ in range(100): sendall(data); bytes_sent += len(data); recv(4096)`,
then `requests += 1`.  Any socket error lands in the handler at line 246,
after which the outer loop retries; `len(data) = 1024` (line 224). -/

/-- Counter state of one `network_client` worker (lines 221-222). -/
structure ClientState where
  bytes_sent : Nat
  requests : Nat
deriving DecidableEq, Repr

/-- `k` completed iterations of the inner send loop: each adds
`len(data) = 1024` to `bytes_sent` and never touches `requests`. -/
def do_sends : Nat → ClientState → ClientState
  | 0, st => st
  | k + 1, st => do_sends k { st with bytes_sent := st.bytes_sent + 1024 }

/-- Outcome of one outer-loop iteration: either all 100 sends and echo reads
succeed, or a socket error interrupts the connection after some number of
completed send increments. -/
inductive ConnOutcome where
  | completed
  | failedAfter (sends : Nat)

/-- One iteration of the outer `while` loop (lines 228-248): on success the
request counter is incremented once, after the whole send loop; on error
only the completed sends count and `requests` is unchanged. -/
def conn_iter (st : ClientState) : ConnOutcome → ClientState
  | .completed =>
    let st2 := do_sends 100 st
    { st2 with requests := st2.requests + 1 }
  | .failedAfter s => do_sends (min s 100) st

/-- A client run over the outcomes of its successive connection attempts,
starting from `bytes_sent = 0`, `requests = 0`. -/
def client_run (outcomes : List ConnOutcome) : ClientState :=
  outcomes.foldl conn_iter ⟨0, 0⟩

lemma do_sends_eq :
    ∀ (k : Nat) (st : ClientState),
      do_sends k st = ⟨st.bytes_sent + 1024 * k, st.requests⟩ := by
  intro k
  induction k with
  | zero => intro st; cases st; simp [do_sends]
  | succ k ih =>
    intro st
    show do_sends k { st with bytes_sent := st.bytes_sent + 1024 } = _
    rw [ih]
    have h : st.bytes_sent + 1024 + 1024 * k = st.bytes_sent + 1024 * (k + 1) := by ring
    simp only [h]

lemma conn_iter_preserves (st : ClientState) (o : ConnOutcome)
    (h : 102400 * st.requests ≤ st.bytes_sent) :
    102400 * (conn_iter st o).requests ≤ (conn_iter st o).bytes_sent := by
  cases o with
  | completed =>
    show 102400 * ((do_sends 100 st).requests + 1) ≤ (do_sends 100 st).bytes_sent
    rw [do_sends_eq]
    simp only []
    omega
  | failedAfter s =>
    show 102400 * (do_sends (min s 100) st).requests ≤ (do_sends (min s 100) st).bytes_sent
    rw [do_sends_eq]
    simp only []
    omega

lemma client_run_inv (outcomes : List ConnOutcome) :
    102400 * (client_run outcomes).requests ≤ (client_run outcomes).bytes_sent := by
  unfold client_run
  have h : ∀ (l : List ConnOutcome) (st : ClientState),
      102400 * st.requests ≤ st.bytes_sent →
      102400 * (l.foldl conn_iter st).requests ≤ (l.foldl conn_iter st).bytes_sent := by
    intro l
    induction l with
    | nil => intro st hst; exact hst
    | cons o l ih =>
      intro st hst
      exact ih (conn_iter st o) (conn_iter_preserves st o hst)
  exact h outcomes ⟨0, 0⟩ (by simp)

/-- C10: in every reachable client state — after any sequence of connection
outcomes, and at any intermediate point up to 100 sends into the next
connection — `bytes_sent >= 102400 * requests`; and each fully completed
connection adds exactly `102400 = 100 * 1024` to `bytes_sent` and exactly 1
to `requests`. -/
theorem network_client_counters (outcomes : List ConnOutcome) (j : Nat)
    (hj : j ≤ 100) :
    102400 * (client_run outcomes).requests ≤ (client_run outcomes).bytes_sent ∧
    (∀ st : ClientState, conn_iter st .completed =
      ⟨st.bytes_sent + 102400, st.requests + 1⟩) ∧
    102400 * (do_sends j (client_run outcomes)).requests ≤
      (do_sends j (client_run outcomes)).bytes_sent := by
  refine ⟨client_run_inv outcomes, ?_, ?_⟩
  · intro st
    show { do_sends 100 st with requests := (do_sends 100 st).requests + 1 } = _
    rw [do_sends_eq]
  · rw [do_sends_eq]
    have h := client_run_inv outcomes
    simp only []
    omega

/-- Witness for C10: one completed connection followed by a connection that
fails after 37 sends, observed 5 sends into the next connection. -/
theorem network_client_counters_witness :
    102400 * (client_run [ConnOutcome.completed, ConnOutcome.failedAfter 37]).requests ≤
      (client_run [ConnOutcome.completed, ConnOutcome.failedAfter 37]).bytes_sent ∧
    (∀ st : ClientState, conn_iter st .completed =
      ⟨st.bytes_sent + 102400, st.requests + 1⟩) ∧
    102400 * (do_sends 5 (client_run
        [ConnOutcome.completed, ConnOutcome.failedAfter 37])).requests ≤
      (do_sends 5 (client_run
        [ConnOutcome.completed, ConnOutcome.failedAfter 37])).bytes_sent :=
  network_client_counters [ConnOutcome.completed, ConnOutcome.failedAfter 37] 5
    (by decide)

end Systress
